import Mathlib

/-!
Shallow embedding of `src/.opencode/plugins/credit-switcher.js` (the clean
second copy of the plugin file; the claims' line references point there).

JSON-shaped JavaScript values are modelled by `JsVal`; host-API calls made by
the plugin are modelled by an `Oracle` of pure response functions together
with an explicit trace of `HostCall`s.  JavaScript numbers are modelled as
`Int` (all numbers the plugin manipulates are integer timestamps and HTTP
status codes); `Number(...)` coercion of strings is modelled on integer
literals.  Modelling restrictions that do not affect the claims are noted
in comments next to the definitions they concern.
-/

/-- A JSON-shaped JavaScript value.  A missing object field (JS `undefined`)
is represented by `Option.none` at use sites, never by a `JsVal`. -/
inductive JsVal where
  | null
  | bool (b : Bool)
  | num (n : Int)
  | str (s : String)
  | arr (elems : List JsVal)
  | obj (fields : List (String × JsVal))

/-- Property access `v.k`: `none` models JS `undefined`.  Objects built in
this development never repeat a key, so first-match lookup is faithful. -/
def getF : JsVal → String → Option JsVal
  | .obj fs, k => (fs.find? (fun p => p.1 == k)).map (fun p => p.2)
  | _, _ => none

/-- Optional-chaining path access `v?.k1?.k2...`. -/
def getPath (v : JsVal) (ks : List String) : Option JsVal :=
  ks.foldl (fun acc k => acc.bind (fun w => getF w k)) (some v)

/-- JS truthiness of a value (NaN is not modelled; all numbers are finite). -/
def jsTruthy : JsVal → Bool
  | .null => false
  | .bool b => b
  | .num n => n != 0
  | .str s => s != ""
  | .arr _ => true
  | .obj _ => true

/-- Is the value a JS boolean. -/
def JsVal.isBool : JsVal → Bool
  | .bool _ => true
  | _ => false

/-- JS `a || b` on possibly-missing values: keep `a` when truthy, else `b`
(even when `b` is falsy or missing). -/
def jsOrVal (a b : Option JsVal) : Option JsVal :=
  match a with
  | some v => if jsTruthy v then some v else b
  | none => b

/-- JS `a || b || dflt` where the final default is a present value. -/
def jsOr3 (a b : Option JsVal) (dflt : JsVal) : JsVal :=
  match jsOrVal a b with
  | some v => if jsTruthy v then v else dflt
  | none => dflt

/-- JS `response?.data ?? response` (`??` skips `undefined` and `null`). -/
def coalesce (a : Option JsVal) (b : JsVal) : JsVal :=
  match a with
  | some .null => b
  | some v => v
  | none => b

/-- First non-nullish element of a `??` chain (`a ?? b ?? ...`). -/
def firstNonNullish : List (Option JsVal) → Option JsVal
  | [] => none
  | none :: rest => firstNonNullish rest
  | some .null :: rest => firstNonNullish rest
  | some v :: _ => some v

/-- First defined element of an ordered candidate list. -/
def firstSome {α : Type} : List (Option α) → Option α
  | [] => none
  | some v :: _ => some v
  | none :: rest => firstSome rest

/-- `String.prototype.toLowerCase` (ASCII case mapping). -/
def lowerStr (s : String) : String := ⟨s.data.map Char.toLower⟩

/-- JS `String.prototype.trim` over the character list. -/
def trimChars (l : List Char) : List Char :=
  ((l.dropWhile Char.isWhitespace).reverse.dropWhile Char.isWhitespace).reverse

/-- JS `s.trim()`. -/
def jsTrim (s : String) : String := ⟨trimChars s.data⟩

/-- Decimal digits of a natural number, most significant first. -/
def natChars (n : Nat) : List Char :=
  if _h : n < 10 then [Char.ofNat ('0'.toNat + n)]
  else natChars (n / 10) ++ [Char.ofNat ('0'.toNat + n % 10)]
decreasing_by exact Nat.div_lt_self (Nat.lt_of_lt_of_le (by decide) (Nat.le_of_not_lt _h)) (by decide)

/-- Decimal rendering of an integer (what JS string templates and
`JSON.stringify` print for the integers the plugin meets). -/
def intStr (n : Int) : String :=
  match n with
  | .ofNat m => ⟨natChars m⟩
  | .negSucc m => "-" ++ ⟨natChars (m + 1)⟩

mutual

/-- `JSON.stringify` on JSON-shaped values.  String escaping is omitted:
events modelled here contain no quotes or backslashes. -/
def stringify : JsVal → String
  | .null => "null"
  | .bool b => if b then "true" else "false"
  | .num n => intStr n
  | .str s => "\"" ++ s ++ "\""
  | .arr xs => "[" ++ stringifyArr xs ++ "]"
  | .obj fs => "\x7b" ++ stringifyObj fs ++ "\x7d"

/-- Comma-joined serialization of array elements. -/
def stringifyArr : List JsVal → String
  | [] => ""
  | [x] => stringify x
  | x :: y :: rest => stringify x ++ "," ++ stringifyArr (y :: rest)

/-- Comma-joined serialization of object fields. -/
def stringifyObj : List (String × JsVal) → String
  | [] => ""
  | [(k, v)] => "\"" ++ k ++ "\":" ++ stringify v
  | (k, v) :: f :: rest => "\"" ++ k ++ "\":" ++ stringify v ++ "," ++ stringifyObj (f :: rest)

end

mutual

/-- JS `String(value)` coercion (arrays join with `,`; objects print as
`[object Object]`). -/
def jsToString : JsVal → String
  | .null => "null"
  | .bool b => if b then "true" else "false"
  | .num n => intStr n
  | .str s => s
  | .arr xs => jsToStringArr xs
  | .obj _ => "[object Object]"

/-- Array `toString`: elements joined with commas. -/
def jsToStringArr : List JsVal → String
  | [] => ""
  | [x] => jsToString x
  | x :: y :: rest => jsToString x ++ "," ++ jsToStringArr (y :: rest)

end

/-- Parse a nonempty all-digit run as a `Nat`. -/
def parseDigits (ds : List Char) : Option Nat :=
  if ds.isEmpty then none
  else if ds.all Char.isDigit then
    some (ds.foldl (fun acc c => acc * 10 + (c.toNat - '0'.toNat)) 0)
  else none

/-- Integer-literal parse of a trimmed decimal string (optional sign). -/
def parseIntChars : List Char → Option Int
  | [] => none
  | '-' :: ds => (parseDigits ds).map (fun n => -(n : Int))
  | '+' :: ds => (parseDigits ds).map (fun n => (n : Int))
  | ds => (parseDigits ds).map (fun n => (n : Int))

/-- JS `Number(value)` for a possibly-missing value, restricted to the
integer-valued cases the plugin meets; `none` models NaN.  `Number(array)`
is modelled as NaN (JS coerces singleton arrays, never relevant here). -/
def jsToNumber : Option JsVal → Option Int
  | none => none
  | some .null => some 0
  | some (.bool b) => some (if b then 1 else 0)
  | some (.num n) => some n
  | some (.str s) =>
      let t := jsTrim s
      if t = "" then some 0 else parseIntChars t.data
  | some (.arr _) => none
  | some (.obj _) => none

/-- Character-list version of JS `text.includes(needle)`: prefix test. -/
def isPrefixChars : List Char → List Char → Bool
  | [], _ => true
  | _ :: _, [] => false
  | a :: as, b :: bs => a == b && isPrefixChars as bs

/-- Character-list version of JS `text.includes(needle)`: substring test. -/
def isSubChars (needle : List Char) : List Char → Bool
  | [] => isPrefixChars needle []
  | c :: rest => isPrefixChars needle (c :: rest) || isSubChars needle rest

/-- JS `hay.includes(needle)` on strings. -/
def containsSub (hay needle : String) : Bool := isSubChars needle.data hay.data

/-- JS `value.split("/")` on the character list (single-char separator). -/
def splitChars : List Char → List (List Char)
  | [] => [[]]
  | c :: rest =>
    if c = '/' then [] :: splitChars rest
    else
      match splitChars rest with
      | g :: gs => (c :: g) :: gs
      | [] => [[c]]

/-- JS `parts.join("/")` on character-list groups. -/
def joinSlash : List (List Char) → List Char
  | [] => []
  | [g] => g
  | g :: h :: rest => g ++ '/' :: joinSlash (h :: rest)

/-- `ModelRef`: `{ providerId, modelId }`, both strings. -/
structure ModelRef where
  providerId : String
  modelId : String
deriving DecidableEq, Repr

/-- `parseModel(value)` from the source: split a `"provider/model"` string on
`/`; fewer than two segments (or a non-string / empty value) gives `null`. -/
def parseModel : Option String → Option ModelRef
  | none => none
  | some s =>
    if s = "" then none
    else
      match splitChars s.data with
      | [] => none
      | [_] => none
      | p :: q :: rest => some ⟨⟨p⟩, ⟨joinSlash (q :: rest)⟩⟩

/-- `modelToString(model)` from the source: `null` for a missing ref or when
either component is falsy (empty); the string pass-through branch of the JS
function is unreachable at its call sites, which always pass refs. -/
def modelToString : Option ModelRef → Option String
  | none => none
  | some m =>
      if m.providerId != "" && m.modelId != "" then
        some (m.providerId ++ "/" ++ m.modelId)
      else none

/-- `modelsEqual(a, b)` from the source: false when either is `null`, else
exact equality on both fields. -/
def modelsEqual (a b : Option ModelRef) : Bool :=
  match a, b with
  | some x, some y => x.providerId == y.providerId && x.modelId == y.modelId
  | _, _ => false

/-- JS `a || b` on nullable strings (`""` is falsy), as used for
`record.originalModel || state.config.primaryModel`. -/
def jsOrStr (a b : Option String) : Option String :=
  match a with
  | some s => if s = "" then b else some s
  | none => b

/-- Configuration `fallback` trigger rules (normalized: arrays present). -/
structure FallbackRules where
  onStatus : List Int
  onErrorCodes : List String
  onMessageMatches : List String

/-- Configuration `licensing` block. -/
structure Licensing where
  requireProviders : List String

/-- Configuration `restore` block. -/
structure RestoreCfg where
  enabled : Bool
  intervalHours : Int

/-- Configuration `notifications` block. -/
structure Notifications where
  toastOnFallback : Bool
  toastOnRestore : Bool
  confirmOnFallback : Bool

/-- Normalized plugin configuration (immutable per process). -/
structure Config where
  enabled : Bool
  primaryModel : Option String
  fallbackModel : Option String
  licensing : Licensing
  restore : RestoreCfg
  fallback : FallbackRules
  notifications : Notifications

/-- `extractStatus(event)`: first candidate location whose `Number(...)`
coercion is finite. -/
def extractStatus (event : JsVal) : Option Int :=
  firstSome
    ([getPath event ["properties", "error", "status"],
      getPath event ["properties", "status"],
      getPath event ["error", "status"],
      getPath event ["status"]].map jsToNumber)

/-- `extractCode(event)`: first candidate that is a string with nonempty
trim, returned trimmed. -/
def extractCode (event : JsVal) : Option String :=
  firstSome
    ([getPath event ["properties", "error", "code"],
      getPath event ["properties", "code"],
      getPath event ["error", "code"],
      getPath event ["code"]].map (fun c =>
        match c with
        | some (.str s) => if jsTrim s = "" then none else some (jsTrim s)
        | _ => none))

/-- `extractText(event)`: first candidate that is a string with nonempty
trim, lowercased untrimmed; otherwise the lowercased `JSON.stringify` of the
whole event. -/
def extractText (event : JsVal) : String :=
  match firstSome
    ([getPath event ["properties", "error", "message"],
      getPath event ["properties", "message"],
      getPath event ["error", "message"],
      getPath event ["message"]].map (fun c =>
        match c with
        | some (.str s) => if jsTrim s = "" then none else some (lowerStr s)
        | _ => none)) with
  | some t => t
  | none => lowerStr (stringify event)

/-- `extractSessionId(event)`: first candidate that is a string with
nonempty trim, returned trimmed. -/
def extractSessionId (event : JsVal) : Option String :=
  firstSome
    ([getPath event ["properties", "session", "id"],
      getPath event ["properties", "sessionId"],
      getPath event ["properties", "id"],
      getPath event ["session", "id"],
      getPath event ["sessionId"],
      getPath event ["id"]].map (fun c =>
        match c with
        | some (.str s) => if jsTrim s = "" then none else some (jsTrim s)
        | _ => none))

/-- `isCreditExhausted(event, config)`: status membership, case-insensitive
code equality, or lowercase substring match on the extracted text (the text
guard mirrors JS falsiness of the empty string). -/
def isCreditExhausted (event : JsVal) (config : Config) : Bool :=
  let status := extractStatus event
  let code := extractCode event
  let text := extractText event
  let statusMatches :=
    match status with
    | some s => config.fallback.onStatus.any (fun v => v == s)
    | none => false
  let codeMatches :=
    match code with
    | some c =>
        if c = "" then false
        else config.fallback.onErrorCodes.any (fun v => lowerStr v == lowerStr c)
    | none => false
  let textMatches :=
    if text = "" then false
    else config.fallback.onMessageMatches.any (fun v => containsSub text (lowerStr v))
  statusMatches || codeMatches || textMatches

/-- One persisted `FallbackRecord` (per session id).  An absent/zero
`exhaustedAt` is modelled as `0`, matching `Number(record?.exhaustedAt || 0)`. -/
structure FallbackRecord where
  exhaustedAt : Int
  lastFallbackAt : Int
  originalModel : Option String
  fallbackModel : Option String
  restoredAt : Option Int
  lastRestoreAttemptAt : Option Int
deriving DecidableEq, Repr

/-- `PersistedState`: the state-file blob. -/
structure PersistedState where
  sessions : List (String × FallbackRecord)
  lastCheckAt : Int
deriving DecidableEq, Repr

/-- In-memory plugin state touched by the event handler. -/
structure HandlerState where
  attemptedSessions : List String
  stateData : Option PersistedState
deriving DecidableEq, Repr

/-- Trace entry for each host-API interaction the plugin attempts. -/
inductive HostCall where
  | providersList
  | sessionGet (sid : String)
  | sessionMessages (sid : String)
  | confirmShown
  | promptSent (sid : String) (model : ModelRef) (parts : List JsVal)
  | sessionUpdate (sid : String) (model : ModelRef)
  | toastShown
  | stateSaved
  | logMsg (level message : String)

/-- Is this trace entry the `client.session.prompt` call. -/
def HostCall.isPrompt : HostCall → Bool
  | .promptSent _ _ _ => true
  | _ => false

/-- Is this trace entry the `client.session.update` call. -/
def HostCall.isUpdate : HostCall → Bool
  | .sessionUpdate _ _ => true
  | _ => false

/-- Pure model of the host client: each field gives the outcome of the
corresponding API call (`Except.error` models a thrown/rejected call).
`showConfirm = none` models an absent `client.tui.showConfirm` capability.
`now` models `Date.now()` for the run.  Failures of `client.app.log` and of
the state-file write are swallowed by `safeLog`/`saveState` and change no
observable behaviour, so they carry no outcome here. -/
structure Oracle where
  providers : Except Unit JsVal
  sessionGet : String → Except Unit JsVal
  sessionUpdate : String → ModelRef → Except Unit Unit
  sessionMessages : String → Except Unit JsVal
  sessionPrompt : String → ModelRef → List JsVal → Except Unit Unit
  showConfirm : Option (Except Unit JsVal)
  showToast : Except Unit Unit
  now : Int

/-- `getProviders(client)`: unwrap `response?.data ?? response`, then
`payload?.providers || []`.  A truthy non-array `providers` field would make
the caller throw in JS; responses are restricted to well-typed arrays. -/
def getProviders (o : Oracle) : List JsVal :=
  match o.providers with
  | .error _ => []
  | .ok resp =>
    let payload := coalesce (getF resp "data") resp
    match getF payload "providers" with
    | some (.arr xs) => xs
    | _ => []

/-- The id-extraction pipeline of `hasRequiredProviders`: map each provider
through `provider.id || provider.providerID || provider.name`, drop falsy
results, lowercase the string coercion of the rest. -/
def providerIds (providers : List JsVal) : List String :=
  (((providers.map (fun p =>
      jsOrVal (getF p "id") (jsOrVal (getF p "providerID") (getF p "name")))).filterMap
    (fun c =>
      match c with
      | some v => if jsTruthy v then some v else none
      | none => none)).map (fun v => lowerStr (jsToString v)))

/-- Pure core of `hasRequiredProviders(client, config)` over a fetched
provider list. -/
def requiredProvidersOk (providers : List JsVal) (config : Config) : Bool :=
  let required := config.licensing.requireProviders
  if required.isEmpty then true
  else if providers.isEmpty then false
  else required.all (fun v => (providerIds providers).contains (lowerStr v))

/-- `hasRequiredProviders(client, config)` with its call trace: the provider
listing is fetched only when the required set is nonempty. -/
def hasRequiredProviders (o : Oracle) (config : Config) : Bool × List HostCall :=
  if config.licensing.requireProviders.isEmpty then (true, [])
  else (requiredProvidersOk (getProviders o) config, [.providersList])

/-- `getSessionModel(client, sessionId)`: unwrap the session, choose
`session?.model || session?.config?.model || session?.current?.model`, parse
a string model or read `providerID/modelID`-style fields (both must be
truthy; non-string ids are not modelled, the plugin only meets strings). -/
def getSessionModel (o : Oracle) (sid : String) : Option ModelRef :=
  match o.sessionGet sid with
  | .error _ => none
  | .ok resp =>
    let session := coalesce (getF resp "data") resp
    match jsOrVal (getF session "model")
        (jsOrVal (getPath session ["config", "model"]) (getPath session ["current", "model"])) with
    | none => none
    | some m =>
      if jsTruthy m = false then none
      else
        match m with
        | .str s => parseModel (some s)
        | _ =>
          match jsOrVal (getF m "providerID") (jsOrVal (getF m "providerId") (getF m "provider")),
                jsOrVal (getF m "modelID") (jsOrVal (getF m "modelId") (getF m "id")) with
          | some (.str p), some (.str i) =>
              if p != "" && i != "" then some ⟨p, i⟩ else none
          | _, _ => none

/-- `setSessionModel(client, sessionId, model)`: true iff the update call
succeeded (a thrown call is caught and gives false). -/
def setSessionModel (o : Oracle) (sid : String) (m : ModelRef) : Bool :=
  match o.sessionUpdate sid m with
  | .ok _ => true
  | .error _ => false

/-- The `isUser && parts nonempty` test of `getLastUserMessage`'s loop. -/
def isUserWithParts (entry : JsVal) : Bool :=
  let info := jsOr3 (getF entry "info") (getF entry "message") (.obj [])
  let role := jsOrVal (getF info "role") (jsOrVal (getF info "type") (getF info "kind"))
  let isUser :=
    (match role with
     | some (.str r) => r == "user" || r == "UserMessage"
     | _ => false) ||
    (match getF info "user" with
     | some (.bool true) => true
     | _ => false)
  let partsOk :=
    match getF entry "parts" with
    | some (.arr ps) => !ps.isEmpty
    | _ => false
  isUser && partsOk

/-- The most-recent-first scan of `getLastUserMessage` (input reversed). -/
def findLastUser : List JsVal → Option JsVal
  | [] => none
  | entry :: rest => if isUserWithParts entry then some entry else findLastUser rest

/-- `getLastUserMessage(client, sessionId)`. -/
def getLastUserMessage (o : Oracle) (sid : String) : Option JsVal :=
  match o.sessionMessages sid with
  | .error _ => none
  | .ok resp =>
    match coalesce (getF resp "data") resp with
    | .arr xs => findLastUser xs.reverse
    | _ => none

/-- `entry.parts` of the message the handler replays. -/
def partsOf (entry : JsVal) : List JsVal :=
  match getF entry "parts" with
  | some (.arr ps) => ps
  | _ => []

/-- The `typeof confirmed === "boolean"` step of `confirmFallback`: a
boolean value of the `??` chain decides, anything else defaults to proceed
(`return true`). -/
def decisionOf (c : Option JsVal) : Bool :=
  match c with
  | some (.bool b) => b
  | _ => true

/-- The payload interpretation of `confirmFallback`: a boolean payload
decides directly; otherwise the first non-nullish of
`confirmed/accepted/value/ok/success` decides when boolean, else `true`. -/
def confirmDecision (payload : JsVal) : Bool :=
  match payload with
  | .bool b => b
  | _ =>
    decisionOf (firstNonNullish
      [getF payload "confirmed", getF payload "accepted", getF payload "value",
       getF payload "ok", getF payload "success"])

/-- `confirmFallback({...})` with its call trace: default to proceed when
confirmation is off or the capability is absent; a thrown confirm call is
caught (debug-logged) and defaults to proceed; otherwise the unwrapped
payload decides via `confirmDecision`. -/
def confirmFallback (config : Config) (o : Oracle) : Bool × List HostCall :=
  if config.notifications.confirmOnFallback = false then (true, [])
  else
    match o.showConfirm with
    | none => (true, [])
    | some (.error _) => (true, [.confirmShown, .logMsg "debug" "Confirm prompt failed"])
    | some (.ok resp) =>
      (confirmDecision (coalesce (getF resp "data") resp), [.confirmShown])

/-- The provider-mismatch guard of the event handler:
`primaryModel && sessionModel && sessionModel.providerId` and then
`sessionModel.providerId !== primaryModel.providerId`. -/
def providerMismatch (primary session : Option ModelRef) : Bool :=
  match primary, session with
  | some p, some m => m.providerId != "" && m.providerId != p.providerId
  | _, _ => false

/-- `event.type === "session.error"` test (false for non-string types). -/
def isSessionError (event : JsVal) : Bool :=
  match getF event "type" with
  | some (.str t) => t == "session.error"
  | _ => false

/-- `sessions[sessionId] = record`: replace an existing binding in place or
append a new one (JS object key order is insertion order). -/
def setSession (ss : List (String × FallbackRecord)) (sid : String) (r : FallbackRecord) :
    List (String × FallbackRecord) :=
  if ss.any (fun p => p.1 == sid) then
    ss.map (fun p => if p.1 == sid then (sid, r) else p)
  else ss ++ [(sid, r)]

/-- Result of one run of the event handler: the state after the run, the
trace of host calls attempted, the session id for which the fallback offer
point was reached (if any), and whether an exception escaped the handler. -/
structure HandlerOutcome where
  state : HandlerState
  calls : List HostCall
  offeredSid : Option String
  threw : Bool

/-- The `event` handler returned by `CreditSwitcher`, one inbound event.
Mirrors the source line by line: guards, classification, session-id
extraction, at-most-once guard, licensing, model parsing, provider-mismatch
guard, last-user-message fetch, confirmation, state write, prompt replay
(the one call whose failure escapes), and the wrapped success toast. -/
def handleEvent (config : Config) (o : Oracle) (st : HandlerState) (event : JsVal) :
    HandlerOutcome :=
  if (jsTruthy event && isSessionError event) = false then ⟨st, [], none, false⟩
  else if config.enabled = false then ⟨st, [], none, false⟩
  else if isCreditExhausted event config = false then ⟨st, [], none, false⟩
  else
    match extractSessionId event with
    | none => ⟨st, [.logMsg "warn" "Credit error without session id"], none, false⟩
    | some sid =>
      if st.attemptedSessions.contains sid then ⟨st, [], none, false⟩
      else
        let provCheck := hasRequiredProviders o config
        if provCheck.1 = false then
          ⟨st, provCheck.2 ++ [.logMsg "warn" "Required providers not configured; skipping fallback"],
            none, false⟩
        else
          let primaryModel := parseModel config.primaryModel
          match parseModel config.fallbackModel with
          | none => ⟨st, provCheck.2 ++ [.logMsg "error" "Invalid fallbackModel in config"], none, false⟩
          | some fallbackModel =>
            let sessionModel := getSessionModel o sid
            let calls1 := provCheck.2 ++ [.sessionGet sid]
            if providerMismatch primaryModel sessionModel then ⟨st, calls1, none, false⟩
            else
              match getLastUserMessage o sid with
              | none =>
                  ⟨st, calls1 ++ [.sessionMessages sid, .logMsg "warn" "No user message to retry"],
                    none, false⟩
              | some msg =>
                let conf := confirmFallback config o
                let calls3 := calls1 ++ [.sessionMessages sid] ++ conf.2
                if conf.1 = false then
                  ⟨⟨sid :: st.attemptedSessions, st.stateData⟩,
                    calls3 ++ [.logMsg "info" "User declined fallback retry"], some sid, false⟩
                else
                  let calls4 := calls3 ++ [.logMsg "info" "Retrying with fallback model"]
                  let parts := partsOf msg
                  let written : Option PersistedState × List HostCall :=
                    match st.stateData with
                    | none => (none, calls4)
                    | some sd =>
                      let newRecord : FallbackRecord :=
                        ⟨o.now, o.now,
                          modelToString (match sessionModel with
                            | some m => some m
                            | none => primaryModel),
                          modelToString (some fallbackModel), none, none⟩
                      (some ⟨setSession sd.sessions sid newRecord, sd.lastCheckAt⟩,
                        calls4 ++ [.stateSaved])
                  let st2 : HandlerState := ⟨sid :: st.attemptedSessions, written.1⟩
                  let calls6 := written.2 ++ [.promptSent sid fallbackModel parts]
                  match o.sessionPrompt sid fallbackModel parts with
                  | .error _ => ⟨st2, calls6, some sid, true⟩
                  | .ok _ =>
                    if config.notifications.toastOnFallback then
                      match o.showToast with
                      | .ok _ => ⟨st2, calls6 ++ [.toastShown], some sid, false⟩
                      | .error _ =>
                          ⟨st2, calls6 ++ [.toastShown, .logMsg "debug" "Toast failed"], some sid, false⟩
                    else ⟨st2, calls6, some sid, false⟩

/-- `DAY_MS`. -/
def DAY_MS : Int := 24 * 60 * 60 * 1000

/-- `const threshold = intervalMs || DAY_MS` of `runRestoreCheck`. -/
def sweepThreshold (intervalMs : Int) : Int :=
  if intervalMs = 0 then DAY_MS else intervalMs

/-- One iteration of the per-record loop of `runRestoreCheck`: the
exhaustion-age gate, model parsing with config fallback, the three-way
session-model comparison, and the restore attempt with its bookkeeping. -/
def sweepRecord (config : Config) (o : Oracle) (now threshold : Int)
    (sid : String) (r : FallbackRecord) : FallbackRecord × List HostCall :=
  if r.exhaustedAt = 0 || now - r.exhaustedAt < threshold then (r, [])
  else
    match parseModel (jsOrStr r.originalModel config.primaryModel),
          parseModel (jsOrStr r.fallbackModel config.fallbackModel) with
    | some originalModel, some fallbackModel =>
      let sessionModel := getSessionModel o sid
      let calls := [HostCall.sessionGet sid]
      if modelsEqual sessionModel (some originalModel) then
        ({r with restoredAt := some now}, calls)
      else if sessionModel.isSome && !modelsEqual sessionModel (some fallbackModel) then
        (r, calls)
      else
        let updated := setSessionModel o sid originalModel
        let calls2 := calls ++ [HostCall.sessionUpdate sid originalModel]
        let r1 := {r with lastRestoreAttemptAt := some now}
        if updated then
          let r2 := {r1 with restoredAt := some now}
          if config.notifications.toastOnRestore then
            match o.showToast with
            | .ok _ => (r2, calls2 ++ [.toastShown])
            | .error _ => (r2, calls2 ++ [.toastShown, .logMsg "debug" "Restore toast failed"])
          else (r2, calls2)
        else (r1, calls2 ++ [.logMsg "warn" "Failed to restore primary model"])
    | _, _ => (r, [])

/-- `runRestoreCheck({ state, client, intervalMs })`: the rate-limit guard,
the `lastCheckAt` update before the per-record loop, the loop itself, and
the final batch state save. -/
def runRestoreCheck (config : Config) (o : Oracle) (sd : Option PersistedState)
    (intervalMs : Int) : Option PersistedState × List HostCall :=
  if config.restore.enabled = false then (sd, [])
  else
    match sd with
    | none => (none, [])
    | some s =>
      let now := o.now
      let threshold := sweepThreshold intervalMs
      if now - s.lastCheckAt < threshold then (some s, [])
      else
        let results := s.sessions.map (fun p => (p.1, sweepRecord config o now threshold p.1 p.2))
        (some ⟨results.map (fun p => (p.1, p.2.1)), now⟩,
          (results.map (fun p => p.2.2)).flatten ++ [.stateSaved])

/-- A host call that neither sends a prompt nor updates a session model. -/
def benign (c : HostCall) : Bool := !c.isPrompt && !c.isUpdate

/-- Sequential processing of a list of inbound events by one process run of
the handler (each event may see its own host responses); returns the
per-event outcomes. -/
def runEvents (config : Config) : HandlerState → List (Oracle × JsVal) → List HandlerOutcome
  | _, [] => []
  | st, (o, e) :: rest =>
    let out := handleEvent config o st e
    out :: runEvents config (handleEvent config o st e).state rest

/-- A confirm response payload with no recognized decision: the unwrapped
payload is not a boolean and none of `confirmed/accepted/value/ok/success`
holds a boolean. -/
def confirmPayloadAmbiguous (resp : JsVal) : Bool :=
  let payload := coalesce (getF resp "data") resp
  !payload.isBool &&
    (["confirmed", "accepted", "value", "ok", "success"].all (fun k =>
      match getF payload k with
      | some v => !v.isBool
      | none => true))

/-- Base test configuration: enabled, `p1/m1` primary, `p2/m2` fallback, no
licensing requirement, restore on, default trigger rules, all notifications
off. -/
def cfgA : Config :=
  { enabled := true, primaryModel := some "p1/m1", fallbackModel := some "p2/m2",
    licensing := ⟨[]⟩, restore := ⟨true, 24⟩,
    fallback := ⟨[402, 429], ["CREDITS_EXHAUSTED"], ["credit"]⟩,
    notifications := ⟨false, false, false⟩ }

/-- `cfgA` with required providers `["p1", "p2"]`. -/
def cfgC6 : Config := { cfgA with licensing := ⟨["p1", "p2"]⟩ }

/-- `cfgA` with confirm-before-fallback enabled. -/
def cfgC10 : Config := { cfgA with notifications := ⟨false, false, true⟩ }

/-- A qualifying credit-exhaustion event for session `s1` (status 429). -/
def eventA : JsVal :=
  .obj [("type", .str "session.error"),
        ("properties", .obj [("error", .obj [("status", .num 429), ("message", .str "credit limit")]),
                             ("session", .obj [("id", .str "s1")])])]

/-- A session error that matches none of `cfgA`'s trigger rules. -/
def eventC3 : JsVal :=
  .obj [("type", .str "session.error"),
        ("properties", .obj [("error", .obj [("status", .num 500), ("message", .str "boom")]),
                             ("session", .obj [("id", .str "s1")])])]

/-- A last user message with one text part. -/
def userMsgA : JsVal :=
  .obj [("info", .obj [("role", .str "user")]),
        ("parts", .arr [.obj [("type", .str "text"), ("text", .str "hi")]])]

/-- Host responses for the happy path: provider `p1` available, session on
`p1/m1`, one user message, all calls succeed. -/
def oracleOk : Oracle :=
  { providers := .ok (.obj [("providers", .arr [.obj [("id", .str "p1")]])]),
    sessionGet := fun _ => .ok (.obj [("model", .str "p1/m1")]),
    sessionUpdate := fun _ _ => .ok (),
    sessionMessages := fun _ => .ok (.arr [userMsgA]),
    sessionPrompt := fun _ _ _ => .ok (),
    showConfirm := none,
    showToast := .ok (),
    now := 1000 }

/-- `oracleOk` but the prompt-send call rejects. -/
def oracleC1 : Oracle := { oracleOk with sessionPrompt := fun _ _ _ => .error () }

/-- Every failable call other than the prompt send rejects (or, for the
confirm capability, is present and rejects). -/
def oracleAllFail : Oracle :=
  { providers := .error (),
    sessionGet := fun _ => .error (),
    sessionUpdate := fun _ _ => .error (),
    sessionMessages := fun _ => .error (),
    sessionPrompt := fun _ _ _ => .ok (),
    showConfirm := some (.error ()),
    showToast := .error (),
    now := 1000 }

/-- `oracleOk` but the session reports model string `"/m3"` (empty provider
id after parsing). -/
def oracleC7 : Oracle := { oracleOk with sessionGet := fun _ => .ok (.obj [("model", .str "/m3")]) }

/-- `oracleOk` but the session is on `p3/m3`. -/
def oracleC7b : Oracle := { oracleOk with sessionGet := fun _ => .ok (.obj [("model", .str "p3/m3")]) }

/-- `oracleOk` but the confirm capability answers with a payload carrying no
boolean decision. -/
def oracleC10 : Oracle :=
  { oracleOk with showConfirm := some (.ok (.obj [("confirmed", .str "yes")])) }

/-- Initial handler state: empty attempted set, empty persisted sessions. -/
def st0 : HandlerState := ⟨[], some ⟨[], 0⟩⟩

/-- Handler state in which session `s1` was already offered a fallback. -/
def stAttempted : HandlerState := ⟨["s1"], some ⟨[], 0⟩⟩

/-- A fallback record for `s1` that has already been restored (`restoredAt`
set) with an old exhaustion timestamp. -/
def r4 : FallbackRecord := ⟨1, 1, some "p1/m1", some "p2/m2", some 2, none⟩

/-- A fallback record for `s1` still awaiting restore, exhausted long ago. -/
def r8 : FallbackRecord := ⟨1, 1, some "p1/m1", some "p2/m2", none, none⟩

/-- Persisted state whose last sweep was at time 950. -/
def s5 : PersistedState := ⟨[("s1", r8)], 950⟩

theorem firstSome_map_mem {α β : Type} (f : α → Option β) (l : List α) (x : β)
    (h : firstSome (l.map f) = some x) : ∃ c ∈ l, f c = some x := by
  induction l with
  | nil => simp [firstSome] at h
  | cons a rest ih =>
    simp only [List.map_cons] at h
    cases hfa : f a with
    | some v =>
      rw [hfa] at h
      simp only [firstSome] at h
      exact ⟨a, by simp, by rw [hfa, h]⟩
    | none =>
      rw [hfa] at h
      simp only [firstSome] at h
      obtain ⟨c, hc, hfc⟩ := ih h
      exact ⟨c, by simp [hc], hfc⟩

theorem firstNonNullish_mem (l : List (Option JsVal)) (v : JsVal)
    (h : firstNonNullish l = some v) : some v ∈ l := by
  induction l with
  | nil => simp [firstNonNullish] at h
  | cons a rest ih =>
    match a with
    | none => simp only [firstNonNullish] at h; simp [ih h]
    | some .null => simp only [firstNonNullish] at h; simp [ih h]
    | some (.bool b) => simp only [firstNonNullish] at h; simp [h]
    | some (.num n) => simp only [firstNonNullish] at h; simp [h]
    | some (.str s) => simp only [firstNonNullish] at h; simp [h]
    | some (.arr xs) => simp only [firstNonNullish] at h; simp [h]
    | some (.obj fs) => simp only [firstNonNullish] at h; simp [h]

theorem splitChars_ne_nil (l : List Char) : splitChars l ≠ [] := by
  induction l with
  | nil => simp [splitChars]
  | cons c rest ih =>
    simp only [splitChars]
    split
    · simp
    · split <;> simp

theorem joinSlash_splitChars (l : List Char) : joinSlash (splitChars l) = l := by
  induction l with
  | nil => rfl
  | cons c rest ih =>
    simp only [splitChars]
    by_cases hc : c = '/'
    · rw [if_pos hc]
      cases hsp : splitChars rest with
      | nil => exact absurd hsp (splitChars_ne_nil rest)
      | cons g gs =>
        rw [hsp] at ih
        simp [joinSlash, ih, hc]
    · rw [if_neg hc]
      cases hsp : splitChars rest with
      | nil => exact absurd hsp (splitChars_ne_nil rest)
      | cons g gs =>
        rw [hsp] at ih
        cases gs with
        | nil =>
          simp only [joinSlash] at ih ⊢
          simp [ih]
        | cons h t =>
          simp only [joinSlash, List.cons_append] at ih ⊢
          rw [ih]

theorem splitChars_head_no_slash (l : List Char) (g : List Char) (gs : List (List Char))
    (h : splitChars l = g :: gs) : '/' ∉ g := by
  induction l generalizing g gs with
  | nil =>
    simp only [splitChars] at h
    cases h
    simp
  | cons c rest ih =>
    simp only [splitChars] at h
    by_cases hc : c = '/'
    · rw [if_pos hc] at h
      cases h
      simp
    · rw [if_neg hc] at h
      cases hsp : splitChars rest with
      | nil => exact absurd hsp (splitChars_ne_nil rest)
      | cons g' gs' =>
        rw [hsp] at h
        injection h with h1 h2
        subst h1
        intro hmem
        rcases List.mem_cons.mp hmem with h' | h'
        · exact hc h'.symm
        · exact ih g' gs' hsp h'

theorem splitChars_append (a b : List Char) (ha : '/' ∉ a) :
    splitChars (a ++ '/' :: b) = a :: splitChars b := by
  induction a with
  | nil => simp [splitChars]
  | cons c a' ih =>
    have hc : ¬ c = '/' := fun h => ha (by simp [h])
    have ha' : '/' ∉ a' := fun h => ha (List.mem_cons_of_mem _ h)
    simp only [List.cons_append, splitChars, if_neg hc]
    rw [List.append_eq, ih ha']

theorem mk_eq_empty_iff (l : List Char) : (⟨l⟩ : String) = "" ↔ l = [] := by
  constructor
  · intro h
    have : (⟨l⟩ : String).data = ("" : String).data := by rw [h]
    simpa using this
  · intro h
    subst h
    rfl

theorem lowerStr_ne_empty (s : String) (h : s ≠ "") : lowerStr s ≠ "" := by
  intro hc
  apply h
  obtain ⟨l⟩ := s
  rw [mk_eq_empty_iff]
  have := (mk_eq_empty_iff (l.map Char.toLower)).mp hc
  simpa using this

theorem parseModel_mk (p mid : List Char) (hp : '/' ∉ p) (hpne : p ≠ []) :
    parseModel (some (⟨p⟩ ++ "/" ++ ⟨mid⟩)) = some ⟨⟨p⟩, ⟨mid⟩⟩ := by
  have hdata : ((⟨p⟩ ++ "/" ++ ⟨mid⟩ : String)).data = p ++ '/' :: mid := by
    simp [String.data_append]
  have hne : (⟨p⟩ ++ "/" ++ ⟨mid⟩ : String) ≠ "" := by
    intro h
    have : ((⟨p⟩ ++ "/" ++ ⟨mid⟩ : String)).data = [] := by rw [h]
    rw [hdata] at this
    cases p <;> simp at this
  simp only [parseModel, if_neg hne, hdata, splitChars_append p mid hp]
  cases hsp : splitChars mid with
  | nil => exact absurd hsp (splitChars_ne_nil mid)
  | cons g gs =>
    have hjoin : joinSlash (g :: gs) = mid := by
      rw [← hsp]; exact joinSlash_splitChars mid
    simp [hjoin]

/-- Claim C9: round-trip of model references between the Decision Engine and
the Sweeper.  A parseable configured fallback string `v` is parsed to a ref
`m`, serialized into the `FallbackRecord`'s `fallbackModel` field by
`modelToString`, and read back by the sweeper as
`parseModel(record.fallbackModel || config.fallbackModel)`; the result is
exactly `m` again (when a component of `m` is empty the serialization is
`null` and the sweeper falls back to the identical config string).  In
particular `"p2/m2"` round-trips to `{providerId := "p2", modelId := "m2"}`,
exactly on both fields. -/
theorem creditSwitcher_C9_roundtrip : ∀ (v : Option String) (m : ModelRef),
    parseModel v = some m →
    parseModel (jsOrStr (modelToString (some m)) v) = some m ∧
    (parseModel (some "p2/m2") = some ⟨"p2", "m2"⟩ ∧
     modelToString (some ⟨"p2", "m2"⟩) = some "p2/m2") := by
  intro v m h
  refine ⟨?_, by decide, by decide⟩
  cases v with
  | none => simp [parseModel] at h
  | some s =>
    by_cases hs : s = ""
    · simp [parseModel, hs] at h
    · rw [parseModel, if_neg hs] at h
      cases hsp : splitChars s.data with
      | nil => exact absurd hsp (splitChars_ne_nil s.data)
      | cons p tail =>
        cases tail with
        | nil => rw [hsp] at h; simp at h
        | cons q rest =>
          rw [hsp] at h
          simp only [Option.some_inj] at h
          subst h
          by_cases hpe : (⟨p⟩ : String) = ""
          · have : modelToString (some (⟨⟨p⟩, ⟨joinSlash (q :: rest)⟩⟩ : ModelRef)) = none := by
              simp [modelToString, hpe]
            rw [this]
            simp only [jsOrStr]
            rw [parseModel, if_neg hs, hsp]
          · by_cases hme : (⟨joinSlash (q :: rest)⟩ : String) = ""
            · have : modelToString (some (⟨⟨p⟩, ⟨joinSlash (q :: rest)⟩⟩ : ModelRef)) = none := by
                simp [modelToString, hme]
              rw [this]
              simp only [jsOrStr]
              rw [parseModel, if_neg hs, hsp]
            · have hser : modelToString (some (⟨⟨p⟩, ⟨joinSlash (q :: rest)⟩⟩ : ModelRef)) =
                  some (⟨p⟩ ++ "/" ++ ⟨joinSlash (q :: rest)⟩) := by
                simp only [modelToString]
                rw [if_pos]
                simp [hpe, hme]
              rw [hser]
              have happne : (⟨p⟩ ++ "/" ++ ⟨joinSlash (q :: rest)⟩ : String) ≠ "" := by
                intro hcon
                have : ((⟨p⟩ ++ "/" ++ ⟨joinSlash (q :: rest)⟩ : String)).data = [] := by rw [hcon]
                simp [String.data_append] at this
              simp only [jsOrStr, if_neg happne]
              exact parseModel_mk p (joinSlash (q :: rest))
                (splitChars_head_no_slash s.data p (q :: rest) hsp)
                (fun hc => hpe ((mk_eq_empty_iff p).mpr hc))

/-- Witness for C9 at the concrete fallback string `"p2/m2"`. -/
theorem creditSwitcher_C9_roundtrip_witness :
    parseModel (some "p2/m2") = some ⟨"p2", "m2"⟩ ∧
    parseModel (jsOrStr (modelToString (some (⟨"p2", "m2"⟩ : ModelRef))) (some "p2/m2")) =
      some ⟨"p2", "m2"⟩ :=
  ⟨by decide,
   (creditSwitcher_C9_roundtrip (some "p2/m2") ⟨"p2", "m2"⟩ (by decide)).1⟩

/-- Claim C8: restore idempotence.  When a record's exhaustion timestamp is
nonzero and at least one interval old, both stored model strings parse, and
the session's current model equals the record's parsed original model, the
per-record sweep step sets `restoredAt := now` and changes nothing else: the
only host call is the session read — `client.session.update` is never
invoked for that record. -/
theorem creditSwitcher_C8_idempotent : ∀ (config : Config) (o : Oracle)
    (now threshold : Int) (sid : String) (r : FallbackRecord) (om fm : ModelRef),
    r.exhaustedAt ≠ 0 →
    ¬(now - r.exhaustedAt < threshold) →
    parseModel (jsOrStr r.originalModel config.primaryModel) = some om →
    parseModel (jsOrStr r.fallbackModel config.fallbackModel) = some fm →
    getSessionModel o sid = some om →
    sweepRecord config o now threshold sid r =
      ({r with restoredAt := some now}, [.sessionGet sid]) := by
  intro config o now threshold sid r om fm h1 h2 h3 h4 h5
  simp [sweepRecord, h1, h2, h3, h4, h5, modelsEqual]

/-- Witness for C8: record `r8` (exhausted at 1), sweep time 1000000 with
threshold 100, the session already on the original `p1/m1`. -/
theorem creditSwitcher_C8_idempotent_witness :
    sweepRecord cfgA oracleOk 1000000 100 "s1" r8 =
      ({r8 with restoredAt := some 1000000}, [.sessionGet "s1"]) :=
  creditSwitcher_C8_idempotent cfgA oracleOk 1000000 100 "s1" r8 ⟨"p1", "m1"⟩ ⟨"p2", "m2"⟩
    (by decide) (by decide) (by decide) (by decide) (by decide)

theorem sweepRecord_preserves_exhaustedAt (config : Config) (o : Oracle)
    (now threshold : Int) (sid : String) (r : FallbackRecord) :
    ((sweepRecord config o now threshold sid r).1).exhaustedAt = r.exhaustedAt := by
  unfold sweepRecord
  repeat' (first | rfl | split | dsimp only)

/-- Counterexample to claim C4: a record with `restoredAt` already set is
not left unchanged by a later sweep.  For `r4` (`exhaustedAt = 1`,
`restoredAt = some 2`) with sweep time 1000000 and threshold 100, the
exhaustion-age check re-fires and, the session being on the original model,
the sweep pass rewrites `restoredAt` to the sweep time: the record changes. -/
theorem creditSwitcher_C4_counterexample :
    r4.restoredAt = some 2 ∧
    (sweepRecord cfgA oracleOk 1000000 100 "s1" r4).1 = {r4 with restoredAt := some 1000000} ∧
    (sweepRecord cfgA oracleOk 1000000 100 "s1" r4).1 ≠ r4 := by
  exact ⟨rfl, by decide, by decide⟩

/-- Claim C4 as amended: a record with `restoredAt` set is not inert.  The
sweep never clears `exhaustedAt`, so the exhaustion-age check re-fires on
every pass; when the session is on the record's parsed original model the
sweep refreshes `restoredAt` to the sweep time, changing no other field and
making no model-update call.  A new fallback episode still replaces the
record entirely via the Decision Engine. -/
theorem creditSwitcher_C4_amended : ∀ (config : Config) (o : Oracle)
    (now threshold : Int) (sid : String) (r : FallbackRecord) (t : Int) (om fm : ModelRef),
    (∀ (config' : Config) (o' : Oracle) (now' threshold' : Int) (sid' : String)
        (r' : FallbackRecord),
      ((sweepRecord config' o' now' threshold' sid' r').1).exhaustedAt = r'.exhaustedAt) ∧
    (r.restoredAt = some t →
     r.exhaustedAt ≠ 0 →
     ¬(now - r.exhaustedAt < threshold) →
     parseModel (jsOrStr r.originalModel config.primaryModel) = some om →
     parseModel (jsOrStr r.fallbackModel config.fallbackModel) = some fm →
     getSessionModel o sid = some om →
     sweepRecord config o now threshold sid r =
       ({r with restoredAt := some now}, [.sessionGet sid])) := by
  intro config o now threshold sid r t om fm
  refine ⟨fun config' o' now' threshold' sid' r' =>
    sweepRecord_preserves_exhaustedAt config' o' now' threshold' sid' r', ?_⟩
  intro _ h1 h2 h3 h4 h5
  simp [sweepRecord, h1, h2, h3, h4, h5, modelsEqual]

/-- Witness for the amended C4 at the restored record `r4`. -/
theorem creditSwitcher_C4_amended_witness :
    ((sweepRecord cfgA oracleOk 5 7 "s2" r4).1).exhaustedAt = r4.exhaustedAt ∧
    sweepRecord cfgA oracleOk 1000000 100 "s1" r4 =
      ({r4 with restoredAt := some 1000000}, [.sessionGet "s1"]) := by
  have h := creditSwitcher_C4_amended cfgA oracleOk 1000000 100 "s1" r4 2 ⟨"p1", "m1"⟩ ⟨"p2", "m2"⟩
  exact ⟨h.1 cfgA oracleOk 5 7 "s2" r4,
         h.2 (by decide) (by decide) (by decide) (by decide) (by decide) (by decide)⟩

/-- Claim C5: sweep rate limiting.  (i) When less than one interval has
elapsed since `lastCheckAt`, the sweep invocation is a complete no-op: the
state is returned unchanged and no host call or state save happens.
(ii) When a sweep proceeds, the resulting state carries
`lastCheckAt = now`, fixed before any record processing (no record outcome
can change it), so a slow pass cannot retrigger itself.  (iii) Hence two
invocations separated by less than one interval make only the first scan
records: the second is a no-op. -/
theorem creditSwitcher_C5_rateLimit : ∀ (config : Config) (o o2 : Oracle)
    (s : PersistedState) (intervalMs : Int),
    (o.now - s.lastCheckAt < sweepThreshold intervalMs →
      runRestoreCheck config o (some s) intervalMs = (some s, [])) ∧
    (config.restore.enabled = true →
     ¬(o.now - s.lastCheckAt < sweepThreshold intervalMs) →
      ∃ ss, (runRestoreCheck config o (some s) intervalMs).1 = some ⟨ss, o.now⟩) ∧
    (config.restore.enabled = true →
     ¬(o.now - s.lastCheckAt < sweepThreshold intervalMs) →
     o2.now - o.now < sweepThreshold intervalMs →
      runRestoreCheck config o2 (runRestoreCheck config o (some s) intervalMs).1 intervalMs =
        ((runRestoreCheck config o (some s) intervalMs).1, [])) := by
  intro config o o2 s intervalMs
  refine ⟨?_, ?_, ?_⟩
  · intro hlt
    unfold runRestoreCheck
    split
    · rfl
    · dsimp only
      rw [if_pos hlt]
  · intro hen hge
    unfold runRestoreCheck
    rw [hen]
    dsimp only
    rw [if_neg hge]
    exact ⟨_, rfl⟩
  · intro hen hge hlt2
    have hfirst : (runRestoreCheck config o (some s) intervalMs).1 =
        some ⟨((s.sessions.map (fun p =>
          (p.1, sweepRecord config o o.now (sweepThreshold intervalMs) p.1 p.2))).map
            (fun p => (p.1, p.2.1))), o.now⟩ := by
      unfold runRestoreCheck
      rw [hen]
      dsimp only
      rw [if_neg hge]
      simp
    rw [hfirst]
    unfold runRestoreCheck
    rw [hen]
    dsimp only
    rw [if_pos hlt2]
    simp

/-- Witness for C5: with `lastCheckAt = 950`, interval 100, a sweep at time
1000 is a no-op; a sweep at time 2000 proceeds and stamps
`lastCheckAt = 2000`; a follow-up sweep at time 2050 is again a no-op. -/
theorem creditSwitcher_C5_rateLimit_witness :
    runRestoreCheck cfgA { oracleOk with now := 1000 } (some s5) 100 = (some s5, []) ∧
    (∃ ss, (runRestoreCheck cfgA { oracleOk with now := 2000 } (some s5) 100).1 =
      some ⟨ss, 2000⟩) ∧
    runRestoreCheck cfgA { oracleOk with now := 2050 }
        (runRestoreCheck cfgA { oracleOk with now := 2000 } (some s5) 100).1 100 =
      ((runRestoreCheck cfgA { oracleOk with now := 2000 } (some s5) 100).1, []) := by
  refine ⟨(creditSwitcher_C5_rateLimit cfgA { oracleOk with now := 1000 }
      { oracleOk with now := 1000 } s5 100).1 (by decide),
    (creditSwitcher_C5_rateLimit cfgA { oracleOk with now := 2000 }
      { oracleOk with now := 2000 } s5 100).2.1 (by decide) (by decide),
    (creditSwitcher_C5_rateLimit cfgA { oracleOk with now := 2000 }
      { oracleOk with now := 2050 } s5 100).2.2 (by decide) (by decide) (by decide)⟩

theorem str_ne_empty_of_data (s : String) (h : s.data ≠ []) : s ≠ "" := by
  intro hc
  apply h
  rw [hc]

theorem append_ne_empty_left (a b : String) (ha : a ≠ "") : a ++ b ≠ "" := by
  apply str_ne_empty_of_data
  rw [String.data_append]
  intro h
  apply ha
  obtain ⟨la⟩ := a
  rw [mk_eq_empty_iff]
  exact (List.append_eq_nil.mp h).1

theorem natChars_ne_nil (n : Nat) : natChars n ≠ [] := by
  unfold natChars
  split <;> simp

theorem intStr_ne_empty (n : Int) : intStr n ≠ "" := by
  cases n with
  | ofNat m =>
    show (⟨natChars m⟩ : String) ≠ ""
    intro h
    exact natChars_ne_nil m ((mk_eq_empty_iff (natChars m)).mp h)
  | negSucc m =>
    exact append_ne_empty_left "-" _ (by decide)

theorem stringify_ne_empty (e : JsVal) : stringify e ≠ "" := by
  cases e with
  | null => decide
  | bool b => cases b <;> decide
  | num n => exact intStr_ne_empty n
  | str s => exact append_ne_empty_left _ _ (append_ne_empty_left "\"" s (by decide))
  | arr xs => exact append_ne_empty_left _ _ (append_ne_empty_left "[" (stringifyArr xs) (by decide))
  | obj fs =>
      exact append_ne_empty_left _ _ (append_ne_empty_left "\x7b" (stringifyObj fs) (by decide))

theorem jsTrim_ne_empty_src (s : String) (h : jsTrim s ≠ "") : s ≠ "" := by
  intro hc
  subst hc
  exact h rfl

theorem extractText_ne_empty (event : JsVal) : extractText event ≠ "" := by
  unfold extractText
  cases hfs : firstSome
      ([getPath event ["properties", "error", "message"],
        getPath event ["properties", "message"],
        getPath event ["error", "message"],
        getPath event ["message"]].map (fun c =>
          match c with
          | some (.str s) => if jsTrim s = "" then none else some (lowerStr s)
          | _ => none)) with
  | none => exact lowerStr_ne_empty _ (stringify_ne_empty event)
  | some t =>
    obtain ⟨c, _, hfc⟩ := firstSome_map_mem _ _ _ hfs
    match c, hfc with
    | some (.str s), hfc =>
      dsimp only at hfc
      by_cases hts : jsTrim s = ""
      · rw [if_pos hts] at hfc
        cases hfc
      · rw [if_neg hts] at hfc
        cases hfc
        exact lowerStr_ne_empty s (jsTrim_ne_empty_src s hts)

theorem extractCode_ne_some_empty (event : JsVal) (c : String)
    (h : extractCode event = some c) : c ≠ "" := by
  unfold extractCode at h
  obtain ⟨w, _, hfw⟩ := firstSome_map_mem _ _ _ h
  match w, hfw with
  | some (.str s), hfw =>
    dsimp only at hfw
    by_cases hts : jsTrim s = ""
    · rw [if_pos hts] at hfw
      cases hfw
    · rw [if_neg hts] at hfw
      cases hfw
      exact hts

/-- Claim C3: the exhaustion classifier fires iff the extracted numeric
status is in the configured set, or the extracted error code equals a
configured code case-insensitively, or the extracted message text contains
a configured substring case-insensitively (any one signal suffices); and
whenever none of the signals match, the handler performs no state mutation
and makes no host API calls. -/
theorem creditSwitcher_C3_classifier : ∀ (event : JsVal) (config : Config),
    (isCreditExhausted event config = true ↔
      ((∃ s ∈ config.fallback.onStatus, extractStatus event = some s) ∨
       (∃ c ∈ config.fallback.onErrorCodes,
          (extractCode event).map lowerStr = some (lowerStr c)) ∨
       (∃ m ∈ config.fallback.onMessageMatches,
          containsSub (extractText event) (lowerStr m) = true))) ∧
    (¬((∃ s ∈ config.fallback.onStatus, extractStatus event = some s) ∨
       (∃ c ∈ config.fallback.onErrorCodes,
          (extractCode event).map lowerStr = some (lowerStr c)) ∨
       (∃ m ∈ config.fallback.onMessageMatches,
          containsSub (extractText event) (lowerStr m) = true)) →
      ∀ (o : Oracle) (st : HandlerState),
        handleEvent config o st event = ⟨st, [], none, false⟩) := by
  intro event config
  have hstat : (match extractStatus event with
      | some s => config.fallback.onStatus.any (fun v => v == s)
      | none => false) = true ↔
      (∃ s ∈ config.fallback.onStatus, extractStatus event = some s) := by
    cases hS : extractStatus event with
    | none => simp
    | some s0 =>
      dsimp only
      constructor
      · intro h
        obtain ⟨v, hv, hbeq⟩ := List.any_eq_true.mp h
        exact ⟨v, hv, congrArg some (eq_of_beq hbeq).symm⟩
      · rintro ⟨s, hs, hEq⟩
        injection hEq with h'
        exact List.any_eq_true.mpr ⟨s, hs, beq_iff_eq.mpr h'.symm⟩
  have hcode : (match extractCode event with
      | some c =>
          if c = "" then false
          else config.fallback.onErrorCodes.any (fun v => lowerStr v == lowerStr c)
      | none => false) = true ↔
      (∃ c ∈ config.fallback.onErrorCodes,
        (extractCode event).map lowerStr = some (lowerStr c)) := by
    cases hC : extractCode event with
    | none => simp
    | some c0 =>
      have hne : ¬ c0 = "" := extractCode_ne_some_empty event c0 hC
      dsimp only
      rw [if_neg hne]
      constructor
      · intro h
        obtain ⟨v, hv, hbeq⟩ := List.any_eq_true.mp h
        exact ⟨v, hv, congrArg some (eq_of_beq hbeq).symm⟩
      · rintro ⟨c, hc, hEq⟩
        injection hEq with h'
        exact List.any_eq_true.mpr ⟨c, hc, beq_iff_eq.mpr h'.symm⟩
  have htext : (if extractText event = "" then false
      else config.fallback.onMessageMatches.any
        (fun v => containsSub (extractText event) (lowerStr v))) = true ↔
      (∃ m ∈ config.fallback.onMessageMatches,
        containsSub (extractText event) (lowerStr m) = true) := by
    rw [if_neg (extractText_ne_empty event)]
    simp [List.any_eq_true]
  have hiff : isCreditExhausted event config = true ↔
      ((∃ s ∈ config.fallback.onStatus, extractStatus event = some s) ∨
       (∃ c ∈ config.fallback.onErrorCodes,
          (extractCode event).map lowerStr = some (lowerStr c)) ∨
       (∃ m ∈ config.fallback.onMessageMatches,
          containsSub (extractText event) (lowerStr m) = true)) := by
    unfold isCreditExhausted
    dsimp only
    rw [Bool.or_eq_true, Bool.or_eq_true]
    exact (or_congr (or_congr hstat hcode) htext).trans (or_assoc)
  refine ⟨hiff, ?_⟩
  intro hno o st
  have hfalse : isCreditExhausted event config = false := by
    cases h : isCreditExhausted event config
    · rfl
    · exact absurd (hiff.mp h) hno
  unfold handleEvent
  rw [hfalse]
  split
  · rfl
  · split
    · rfl
    · simp

/-- Witness for C3 at a session error with status 500, no code, and message
`"boom"`: no signal matches and the handler is a complete no-op. -/
theorem creditSwitcher_C3_classifier_witness :
    isCreditExhausted eventC3 cfgA = false ∧
    handleEvent cfgA oracleOk st0 eventC3 = ⟨st0, [], none, false⟩ := by
  have h := creditSwitcher_C3_classifier eventC3 cfgA
  have hno : ¬((∃ s ∈ cfgA.fallback.onStatus, extractStatus eventC3 = some s) ∨
      (∃ c ∈ cfgA.fallback.onErrorCodes,
        (extractCode eventC3).map lowerStr = some (lowerStr c)) ∨
      (∃ m ∈ cfgA.fallback.onMessageMatches,
        containsSub (extractText eventC3) (lowerStr m) = true)) := by decide
  refine ⟨?_, h.2 hno oracleOk st0⟩
  cases hc : isCreditExhausted eventC3 cfgA
  · rfl
  · exact absurd (h.1.mp hc) hno

/-- Counterexample to claim C1: a failing `client.session.prompt` call does
propagate out of the event handler.  With a qualifying event and an oracle
whose prompt send rejects while everything else succeeds, the handler run
ends with an escaped exception. -/
theorem creditSwitcher_C1_counterexample :
    oracleC1.sessionPrompt "s1" ⟨"p2", "m2"⟩ (partsOf userMsgA) = .error () ∧
    (handleEvent cfgA oracleC1 st0 eventA).threw = true := by
  exact ⟨rfl, by decide⟩

/-- Claim C1 as amended: the prompt send is the one unguarded external call.
Every other external call (provider listing, session read, message fetch,
confirm, toast, logging, state save) either succeeds or is absorbed into a
log-and-abort of the current path; whenever `client.session.prompt` itself
does not reject, no exception whatsoever escapes the handler. -/
theorem creditSwitcher_C1_amended : ∀ (config : Config) (o : Oracle)
    (st : HandlerState) (event : JsVal),
    (∀ sid m parts, o.sessionPrompt sid m parts = Except.ok ()) →
    (handleEvent config o st event).threw = false := by
  intro config o st event hp
  unfold handleEvent
  repeat' (first | rfl | split | dsimp only)
  all_goals simp_all [hp]

/-- Witness for the amended C1: every failable call other than the prompt
send rejects, and still nothing escapes the handler. -/
theorem creditSwitcher_C1_amended_witness :
    (handleEvent cfgA oracleAllFail st0 eventA).threw = false :=
  creditSwitcher_C1_amended cfgA oracleAllFail st0 eventA (fun _ _ _ => rfl)

theorem handleEvent_offered_contains (config : Config) (o : Oracle) (st : HandlerState)
    (event : JsVal) (sid : String)
    (h : (handleEvent config o st event).offeredSid = some sid) :
    (handleEvent config o st event).state.attemptedSessions.contains sid = true := by
  revert h
  unfold handleEvent
  repeat' (first | split | dsimp only)
  all_goals intro h
  all_goals simp_all

theorem handleEvent_offered_not_attempted (config : Config) (o : Oracle) (st : HandlerState)
    (event : JsVal) (sid : String)
    (h : (handleEvent config o st event).offeredSid = some sid) :
    st.attemptedSessions.contains sid = false := by
  revert h
  unfold handleEvent
  repeat' (first | split | dsimp only)
  all_goals intro h
  all_goals simp_all

theorem handleEvent_attempted_mono (config : Config) (o : Oracle) (st : HandlerState)
    (event : JsVal) (sid : String)
    (h : st.attemptedSessions.contains sid = true) :
    (handleEvent config o st event).state.attemptedSessions.contains sid = true := by
  unfold handleEvent
  repeat' (first | split | dsimp only)
  all_goals simp_all [List.contains_cons]

theorem handleEvent_blocked (config : Config) (o : Oracle) (st : HandlerState)
    (event : JsVal) (sid : String)
    (hx : extractSessionId event = some sid)
    (hc : st.attemptedSessions.contains sid = true) :
    handleEvent config o st event = ⟨st, [], none, false⟩ := by
  unfold handleEvent
  repeat' (first | rfl | split | dsimp only)
  all_goals simp_all

theorem runEvents_countP_zero (config : Config) (sid : String)
    (steps : List (Oracle × JsVal)) : ∀ (st : HandlerState),
    st.attemptedSessions.contains sid = true →
    (runEvents config st steps).countP (fun out => out.offeredSid == some sid) = 0 := by
  induction steps with
  | nil => intro st _; rfl
  | cons step rest ih =>
    intro st hc
    obtain ⟨o, e⟩ := step
    rw [runEvents]
    rw [List.countP_cons]
    have hno : ((handleEvent config o st e).offeredSid == some sid) = false := by
      cases hoff : (handleEvent config o st e).offeredSid with
      | none => rfl
      | some sid' =>
        by_cases hss : sid' = sid
        · subst hss
          have := handleEvent_offered_not_attempted config o st e sid' hoff
          rw [hc] at this
          cases this
        · simp [hss]
    rw [hno]
    rw [ih (handleEvent config o st e).state (handleEvent_attempted_mono config o st e sid hc)]
    simp

/-- Claim C2: at most one fallback offer per session id per process run.
(i) Whenever a handler run reaches the offer point for a session id — the
user accepting or declining alike — that id ends up in the in-memory
attempted set.  (ii) An event whose extracted session id is already in the
attempted set makes the handler abort untouched: no state change, no host
call, before any further fallback action.  (iii) Over any sequence of
events processed by one process run, the offer point is reached at most
once for any given session id. -/
theorem creditSwitcher_C2_atMostOnce : ∀ (config : Config) (sid : String),
    (∀ (o : Oracle) (st : HandlerState) (event : JsVal),
      (handleEvent config o st event).offeredSid = some sid →
      (handleEvent config o st event).state.attemptedSessions.contains sid = true) ∧
    (∀ (o : Oracle) (st : HandlerState) (event : JsVal),
      extractSessionId event = some sid →
      st.attemptedSessions.contains sid = true →
      handleEvent config o st event = ⟨st, [], none, false⟩) ∧
    (∀ (st : HandlerState) (steps : List (Oracle × JsVal)),
      (runEvents config st steps).countP (fun out => out.offeredSid == some sid) ≤ 1) := by
  intro config sid
  refine ⟨fun o st event h => handleEvent_offered_contains config o st event sid h,
    fun o st event hx hc => handleEvent_blocked config o st event sid hx hc, ?_⟩
  intro st steps
  induction steps generalizing st with
  | nil => simp [runEvents]
  | cons step rest ih =>
    obtain ⟨o, e⟩ := step
    rw [runEvents]
    rw [List.countP_cons]
    cases hoff : ((handleEvent config o st e).offeredSid == some sid) with
    | false =>
      simpa using ih (handleEvent config o st e).state
    | true =>
      have hsome : (handleEvent config o st e).offeredSid = some sid := by
        cases h' : (handleEvent config o st e).offeredSid with
        | none => rw [h'] at hoff; cases hoff
        | some sid' =>
          rw [h'] at hoff
          exact eq_of_beq hoff
      have hzero := runEvents_countP_zero config sid rest
        (handleEvent config o st e).state
        (handleEvent_offered_contains config o st e sid hsome)
      rw [hzero]
      simp

/-- Witness for C2: processing the same qualifying error event for `s1`
twice in a row yields exactly one offer; once `s1` is attempted, a further
event for it is a no-op. -/
theorem creditSwitcher_C2_atMostOnce_witness :
    (handleEvent cfgA oracleOk st0 eventA).state.attemptedSessions.contains "s1" = true ∧
    handleEvent cfgA oracleOk stAttempted eventA = ⟨stAttempted, [], none, false⟩ ∧
    (runEvents cfgA st0 [(oracleOk, eventA), (oracleOk, eventA)]).countP
      (fun out => out.offeredSid == some "s1") ≤ 1 := by
  have h := creditSwitcher_C2_atMostOnce cfgA "s1"
  exact ⟨h.1 oracleOk st0 eventA (by decide),
    h.2.1 oracleOk stAttempted eventA (by decide) (by decide),
    h.2.2 st0 [(oracleOk, eventA), (oracleOk, eventA)]⟩

/-- Claim C6: licensing gate.  With a nonempty required-provider set, the
check fails when the fetched provider list is empty or some required id is
absent from the extracted, lowercased provider ids; and whenever the check
fails, the handler aborts the fallback: state untouched, no prompt ever
sent, nothing thrown. -/
theorem creditSwitcher_C6_licensing : ∀ (config : Config) (providers : List JsVal)
    (o : Oracle) (st : HandlerState) (event : JsVal),
    (config.licensing.requireProviders ≠ [] →
      (providers = [] ∨ ∃ r ∈ config.licensing.requireProviders,
        (providerIds providers).contains (lowerStr r) = false) →
      requiredProvidersOk providers config = false) ∧
    (requiredProvidersOk (getProviders o) config = false →
      (handleEvent config o st event).state = st ∧
      (∀ c ∈ (handleEvent config o st event).calls, c.isPrompt = false) ∧
      (handleEvent config o st event).threw = false) := by
  intro config providers o st event
  constructor
  · intro hne hcase
    have hie : config.licensing.requireProviders.isEmpty = false := by
      cases hl : config.licensing.requireProviders with
      | nil => exact absurd hl hne
      | cons a l => rfl
    unfold requiredProvidersOk
    dsimp only
    rw [hie]
    simp only [Bool.false_eq_true, if_false]
    rcases hcase with hempty | ⟨r, hr, hcontains⟩
    · subst hempty
      simp
    · by_cases hpe : providers.isEmpty = true
      · simp [hpe]
      · rw [if_neg hpe]
        cases hall : config.licensing.requireProviders.all
            (fun v => (providerIds providers).contains (lowerStr v)) with
        | false => rfl
        | true =>
          have := List.all_eq_true.mp hall r hr
          rw [hcontains] at this
          cases this
  · intro hprov
    unfold handleEvent hasRequiredProviders
    repeat' (first | split | dsimp only)
    all_goals simp_all [requiredProvidersOk, HostCall.isPrompt]
    all_goals repeat' split
    all_goals simp [HostCall.isPrompt]

/-- Witness for C6: required providers `["p1", "p2"]` with only `p1`
available — the check fails and the handler sends no prompt. -/
theorem creditSwitcher_C6_licensing_witness :
    requiredProvidersOk [JsVal.obj [("id", .str "p1")]] cfgC6 = false ∧
    (handleEvent cfgC6 oracleOk st0 eventA).state = st0 ∧
    (∀ c ∈ (handleEvent cfgC6 oracleOk st0 eventA).calls, c.isPrompt = false) := by
  have h := creditSwitcher_C6_licensing cfgC6 [JsVal.obj [("id", .str "p1")]] oracleOk st0 eventA
  have h1 := h.1 (by decide) (Or.inr ⟨"p2", by decide, by decide⟩)
  have h2 := h.2 (by decide)
  exact ⟨h1, h2.1, h2.2.1⟩

theorem benign_def_hasRequiredProviders (o : Oracle) (config : Config) :
    ((hasRequiredProviders o config).2.all benign) = true := by
  unfold hasRequiredProviders
  split <;> simp [benign, HostCall.isPrompt, HostCall.isUpdate]

theorem benign_def_confirmFallback (config : Config) (o : Oracle) :
    ((confirmFallback config o).2.all benign) = true := by
  unfold confirmFallback
  repeat' (first | rfl | split)

theorem handleEvent_no_offer_frame (config : Config) (o : Oracle) (st : HandlerState)
    (event : JsVal) (h : (handleEvent config o st event).offeredSid = none) :
    (handleEvent config o st event).state = st ∧
    ((handleEvent config o st event).calls.all benign) = true ∧
    (handleEvent config o st event).threw = false := by
  revert h
  unfold handleEvent
  repeat' (first | split | dsimp only)
  all_goals intro h
  all_goals first
    | exact ⟨rfl, by
        simp [List.all_append, benign_def_hasRequiredProviders, benign_def_confirmFallback,
          benign, HostCall.isPrompt, HostCall.isUpdate], rfl⟩
    | simp at h

theorem handleEvent_mismatch_no_offer (config : Config) (o : Oracle) (st : HandlerState)
    (event : JsVal) (sid : String) (m p : ModelRef)
    (hx : extractSessionId event = some sid)
    (hm : getSessionModel o sid = some m)
    (hp : parseModel config.primaryModel = some p)
    (h4 : m.providerId ≠ "")
    (h5 : m.providerId ≠ p.providerId) :
    (handleEvent config o st event).offeredSid = none := by
  unfold handleEvent
  repeat' (first | rfl | split | dsimp only)
  all_goals simp_all [providerMismatch, bne_iff_ne]

/-- Counterexample to claim C7: a known session model whose provider id
differs from the primary's does not always abort the engine.  With the
session on `"/m3"` the parsed current model is `{providerId := "",
modelId := "m3"}` — known, and its provider differs from primary `p1` — yet
the falsy-`providerId` guard skips the mismatch check and the handler still
sends the fallback prompt. -/
theorem creditSwitcher_C7_counterexample :
    getSessionModel oracleC7 "s1" = some ⟨"", "m3"⟩ ∧
    parseModel cfgA.primaryModel = some ⟨"p1", "m1"⟩ ∧
    ("" : String) ≠ "p1" ∧
    extractSessionId eventA = some "s1" ∧
    (handleEvent cfgA oracleC7 st0 eventA).calls.any (fun c => c.isPrompt) = true := by
  exact ⟨by decide, by decide, by decide, by decide, by decide⟩

/-- Claim C7 as amended: when the session's current model is known with a
nonempty provider id, a primary model is configured and parseable, and the
two provider ids differ, the engine aborts — state untouched, no prompt
sent, no model update, nothing thrown. -/
theorem creditSwitcher_C7_amended : ∀ (config : Config) (o : Oracle)
    (st : HandlerState) (event : JsVal) (sid : String) (m p : ModelRef),
    extractSessionId event = some sid →
    getSessionModel o sid = some m →
    parseModel config.primaryModel = some p →
    m.providerId ≠ "" →
    m.providerId ≠ p.providerId →
    (handleEvent config o st event).state = st ∧
    (∀ c ∈ (handleEvent config o st event).calls,
      c.isPrompt = false ∧ c.isUpdate = false) ∧
    (handleEvent config o st event).threw = false := by
  intro config o st event sid m p hx hm hp h4 h5
  have hnone : (handleEvent config o st event).offeredSid = none :=
    handleEvent_mismatch_no_offer config o st event sid m p hx hm hp h4 h5
  obtain ⟨h1, h2, h3⟩ := handleEvent_no_offer_frame config o st event hnone
  refine ⟨h1, ?_, h3⟩
  intro c hc
  have := List.all_eq_true.mp h2 c hc
  simp only [benign, Bool.and_eq_true, Bool.not_eq_true'] at this
  exact this

/-- Witness for the amended C7: primary `p1/m1`, fallback `p2/m2`, session
on `p3/m3` — nothing is switched. -/
theorem creditSwitcher_C7_amended_witness :
    (handleEvent cfgA oracleC7b st0 eventA).state = st0 ∧
    (∀ c ∈ (handleEvent cfgA oracleC7b st0 eventA).calls,
      c.isPrompt = false ∧ c.isUpdate = false) := by
  have h := creditSwitcher_C7_amended cfgA oracleC7b st0 eventA "s1" ⟨"p3", "m3"⟩ ⟨"p1", "m1"⟩
    (by decide) (by decide) (by decide) (by decide) (by decide)
  exact ⟨h.1, h.2.1⟩

theorem decisionOf_true (c : Option JsVal) (h : ∀ b, c ≠ some (.bool b)) :
    decisionOf c = true := by
  cases c with
  | none => rfl
  | some v =>
    match v with
    | .bool b => exact absurd rfl (h b)
    | .null => rfl
    | .num n => rfl
    | .str s => rfl
    | .arr xs => rfl
    | .obj fs => rfl

theorem confirm_chain_not_bool (payload : JsVal)
    (hfields : (["confirmed", "accepted", "value", "ok", "success"].all (fun k =>
      match getF payload k with
      | some v => !v.isBool
      | none => true)) = true) :
    ∀ b, firstNonNullish [getF payload "confirmed", getF payload "accepted",
      getF payload "value", getF payload "ok", getF payload "success"] ≠
        some (.bool b) := by
  intro b hb
  have hmem := firstNonNullish_mem _ _ hb
  rw [show [getF payload "confirmed", getF payload "accepted", getF payload "value",
      getF payload "ok", getF payload "success"] =
      ["confirmed", "accepted", "value", "ok", "success"].map (fun k => getF payload k)
    from rfl] at hmem
  obtain ⟨k, hk, hgf⟩ := List.mem_map.mp hmem
  have hkk := List.all_eq_true.mp hfields k hk
  rw [hgf] at hkk
  simp [JsVal.isBool] at hkk

theorem confirmDecision_ambiguous (payload : JsVal)
    (hnb : payload.isBool = false)
    (hfields : (["confirmed", "accepted", "value", "ok", "success"].all (fun k =>
      match getF payload k with
      | some v => !v.isBool
      | none => true)) = true) :
    confirmDecision payload = true := by
  have hchain := confirm_chain_not_bool payload hfields
  unfold confirmDecision
  cases payload with
  | bool b => simp [JsVal.isBool] at hnb
  | null => exact decisionOf_true _ hchain
  | num n => exact decisionOf_true _ hchain
  | str s => exact decisionOf_true _ hchain
  | arr xs => exact decisionOf_true _ hchain
  | obj fs => exact decisionOf_true _ hchain

theorem confirmFallback_ambiguous (config : Config) (o : Oracle) (r : Except Unit JsVal)
    (hcap : o.showConfirm = some r)
    (hamb : (∃ u, r = .error u) ∨ (∃ pl, r = .ok pl ∧ confirmPayloadAmbiguous pl = true)) :
    (confirmFallback config o).1 = true := by
  unfold confirmFallback
  split
  · rfl
  · rw [hcap]
    rcases hamb with ⟨u, rfl⟩ | ⟨pl, rfl, hambp⟩
    · rfl
    · unfold confirmPayloadAmbiguous at hambp
      dsimp only at hambp ⊢
      rw [Bool.and_eq_true] at hambp
      obtain ⟨hnb, hfields⟩ := hambp
      exact confirmDecision_ambiguous _ (by simpa using hnb) hfields

theorem handleEvent_offered_prompts (config : Config) (o : Oracle) (st : HandlerState)
    (event : JsVal) (sid : String)
    (hconf : (confirmFallback config o).1 = true)
    (h : (handleEvent config o st event).offeredSid = some sid) :
    (handleEvent config o st event).calls.any (fun c => c.isPrompt) = true := by
  revert h
  unfold handleEvent
  repeat' (first | split | dsimp only)
  all_goals intro h
  any_goals simp at h
  any_goals (exfalso; simp_all; done)
  all_goals simp only [List.any_append, List.any_cons, List.any_nil, HostCall.isPrompt, Bool.or_true, Bool.true_or, Bool.or_false, Bool.false_or]

/-- Claim C10: confirm-failure defaults to acceptance.  With confirmation
enabled and the confirm capability present, a `showConfirm` call that
throws, or that answers with a payload that is not a boolean and carries no
boolean under `confirmed/accepted/value/ok/success`, makes `confirmFallback`
return `true`; consequently any handler run that reaches the offer point
under this oracle proceeds to send the fallback prompt, exactly as if the
user had confirmed. -/
theorem creditSwitcher_C10_confirmDefault : ∀ (config : Config) (o : Oracle)
    (r : Except Unit JsVal),
    config.notifications.confirmOnFallback = true →
    o.showConfirm = some r →
    ((∃ u, r = .error u) ∨ (∃ pl, r = .ok pl ∧ confirmPayloadAmbiguous pl = true)) →
    (confirmFallback config o).1 = true ∧
    (∀ (st : HandlerState) (event : JsVal) (sid : String),
      (handleEvent config o st event).offeredSid = some sid →
      (handleEvent config o st event).calls.any (fun c => c.isPrompt) = true) := by
  intro config o r _henabled hcap hamb
  have hconf := confirmFallback_ambiguous config o r hcap hamb
  exact ⟨hconf, fun st event sid h =>
    handleEvent_offered_prompts config o st event sid hconf h⟩

/-- Witness for C10 at a confirm payload `{confirmed: "yes"}` (no boolean
anywhere): confirm defaults to proceed and the prompt is sent. -/
theorem creditSwitcher_C10_confirmDefault_witness :
    (confirmFallback cfgC10 oracleC10).1 = true ∧
    (handleEvent cfgC10 oracleC10 st0 eventA).offeredSid = some "s1" ∧
    (handleEvent cfgC10 oracleC10 st0 eventA).calls.any (fun c => c.isPrompt) = true := by
  have h := creditSwitcher_C10_confirmDefault cfgC10 oracleC10
    (.ok (.obj [("confirmed", .str "yes")])) (by decide) rfl
    (Or.inr ⟨.obj [("confirmed", .str "yes")], rfl, by decide⟩)
  exact ⟨h.1, by decide, h.2 st0 eventA "s1" (by decide)⟩
